import Mathlib

/-!
Verification of the blog utility layer: `BlogPostManager`
(src/utils/BlogPostManager.ts) and `SEOMetadataBuilder`
(src/utils/SEOMetadataBuilder.ts), against the repository specification.

The TypeScript code is shallowly embedded: JS strings become `String`
(operated on through their character list `data`), JS numbers arising from
`length / length` divisions become an exact JS-number type `JSNum`
(rational, positive infinity, or NaN — the three values `a / b` can take
for natural `a`, `b`), timestamps (`Date` values compared by the sort)
become `Int` epoch milliseconds, and `Array.prototype.sort` — stable per
the ECMAScript specification — is modelled by a stable insertion sort
(`stableSortDesc`), which computes the unique stable descending
reordering that any conforming stable sort produces.
-/

/-- JS `s.toLowerCase()`: character-wise lowercasing. -/
def jsToLower (s : String) : String :=
  ⟨s.data.map Char.toLower⟩

/-- JS `s.includes(pat)`: `pat` occurs contiguously in `s`.
The empty pattern occurs at position 0 of every string. -/
def strIncludes (s pat : String) : Bool :=
  (List.range (s.data.length + 1)).any fun i =>
    decide ((s.data.drop i).take pat.data.length = pat.data)

/-- JS `s.trim()`: strip whitespace from both ends. -/
def jsTrim (l : List Char) : List Char :=
  ((l.dropWhile Char.isWhitespace).reverse.dropWhile Char.isWhitespace).reverse

/-- Worker for `jsSplitWs`. The flag records whether the previous character
was part of a whitespace run (whose split was already emitted). -/
def jsSplitWsAux : Bool → List Char → List Char → List (List Char)
  | _, cur, [] => [cur.reverse]
  | inWs, cur, c :: cs =>
    if c.isWhitespace then
      if inWs then jsSplitWsAux true cur cs
      else cur.reverse :: jsSplitWsAux true [] cs
    else
      jsSplitWsAux false (c :: cur) cs

/-- JS `s.split(/\s+/)`: split at maximal whitespace runs.
As in JS, `"".split(/\s+/)` is `[""]` (one empty chunk), and leading or
trailing whitespace contributes an empty boundary chunk. -/
def jsSplitWs (l : List Char) : List (List Char) :=
  jsSplitWsAux false [] l

/-- The exact value of a JS floating-point number produced by dividing two
array lengths: a rational, `Infinity` (nonzero over zero), or `NaN`
(zero over zero). -/
inductive JSNum where
  | num (q : ℚ)
  | posInf
  | nan
deriving DecidableEq, Repr

/-- JS division `a / b` of two nonnegative integers (array lengths). -/
def jsDiv (a b : Nat) : JSNum :=
  if b = 0 then (if a = 0 then JSNum.nan else JSNum.posInf)
  else JSNum.num ((a : ℚ) / (b : ℚ))

/-- The JS comparison `x > y`; every comparison with `NaN` is false. -/
def JSNum.gt : JSNum → JSNum → Bool
  | JSNum.num a, JSNum.num b => decide (b < a)
  | JSNum.posInf, JSNum.num _ => true
  | _, _ => false

/-- Rational sort key of a `JSNum`. The related-post pipeline sorts only
lists whose scores are finite rationals (the `> 0` filter removes `NaN`
and no `Infinity` is producible there, see `relevanceScore_bounds`), so the
values chosen for `posInf` and `nan` are never exercised. -/
def JSNum.key : JSNum → ℚ
  | JSNum.num q => q
  | JSNum.posInf => 0
  | JSNum.nan => 0

/-- JS `Array.prototype.sort` with comparator `(a, b) => key(b) - key(a)`:
the stable descending-by-key reordering.  Insertion sort with the
reflexive relation `key b ≤ key a` keeps equal-key elements in their
original relative order, which is exactly the ECMAScript stability
requirement. -/
def stableSortDesc {α β : Type} [LinearOrder β] (key : α → β) (l : List α) : List α :=
  l.insertionSort (fun a b => key b ≤ key a)

/-- One blog post record: the flattening of an Astro
`CollectionEntry<"blog">` (`id` at top level, the remaining fields under
`data`) per the frontmatter schema used by `BlogPostManager` and
`SEOMetadataBuilder`.  `Date` fields are epoch milliseconds. -/
structure Post where
  id : String
  title : String := ""
  description : String := ""
  pubDatetime : Int := 0
  modDatetime : Option Int := none
  author : String := ""
  tags : List String := []
  featured : Option Bool := none
  draft : Option Bool := none
  ogImage : Option String := none
  canonicalURL : Option String := none
deriving DecidableEq, Repr

/-- The `RelatedPost` interface from src/types/blog.ts: a post paired with its
relevance score (a JS number). -/
structure RelatedPost where
  post : Post
  relevanceScore : JSNum
deriving DecidableEq, Repr

/-- The `ReadingTimeResult` interface from src/types/blog.ts. -/
structure ReadingTimeResult where
  minutes : Nat
  text : String
  words : Nat
deriving DecidableEq, Repr

/-- Modelled from the spec: `getSortedPosts` (imported by
`BlogPostManager` from src/utils/getSortedPosts, a file not present in
the repository snapshot) — per §4.1 it produces a copy of the input
"sorted by descending publish timestamp (ties broken by original
relative order — a stable sort is required)". -/
def getSortedPosts (posts : List Post) : List Post :=
  stableSortDesc (fun p => p.pubDatetime) posts

/-- The `BlogPostManager` class: its single private field `posts`. -/
structure BlogPostManager where
  posts : List Post
deriving DecidableEq, Repr

/-- The `BlogPostManager` constructor: retains `getSortedPosts(posts)`. -/
def BlogPostManager.ofPosts (posts : List Post) : BlogPostManager :=
  ⟨getSortedPosts posts⟩

/-- Method `getPostsByTag`: posts whose tag array `includes` the tag. -/
def BlogPostManager.getPostsByTag (m : BlogPostManager) (tag : String) : List Post :=
  m.posts.filter fun post => decide (tag ∈ post.tags)

/-- Method `getFeaturedPosts`: posts with `featured === true`. -/
def BlogPostManager.getFeaturedPosts (m : BlogPostManager) : List Post :=
  m.posts.filter fun post => decide (post.featured = some true)

/-- Method `getPostsByAuthor`: posts with the exact author string. -/
def BlogPostManager.getPostsByAuthor (m : BlogPostManager) (author : String) : List Post :=
  m.posts.filter fun post => decide (post.author = author)

/-- Method `getRecentPosts`: `this.posts.slice(0, limit)` (default 5). -/
def BlogPostManager.getRecentPosts (m : BlogPostManager) (limit : Nat := 5) : List Post :=
  m.posts.take limit

/-- Method `findRelatedPosts`: exclude the current post by id, score each
remaining post as `commonTags.length / currentTags.length` (JS division,
with `commonTags` the candidate's tags that the reference's tag array
`includes`), keep scores `> 0`, sort by descending score with the stable
JS sort, and take the first `limit` (default 3).  The TS locals
`currentTags`, `commonTags` and `scoredPosts` are inlined. -/
def BlogPostManager.findRelatedPosts (m : BlogPostManager) (currentPost : Post)
    (limit : Nat := 3) : List RelatedPost :=
  (stableSortDesc (fun item => item.relevanceScore.key)
    (((m.posts.filter fun post => decide (post.id ≠ currentPost.id)).map fun post =>
        { post := post,
          relevanceScore :=
            jsDiv (post.tags.filter fun tag => decide (tag ∈ currentPost.tags)).length
              currentPost.tags.length }).filter
      fun item => item.relevanceScore.gt (JSNum.num 0))).take limit

/-- Method `calculateReadingTime`: word count of `content.trim().split(/\s+/)`,
minutes `Math.ceil(words / 200)` (exact on these integer word counts). -/
def BlogPostManager.calculateReadingTime (_m : BlogPostManager) (content : String) :
    ReadingTimeResult :=
  let wordsPerMinute := 200
  let words := (jsSplitWs (jsTrim content.data)).length
  let minutes := (words + (wordsPerMinute - 1)) / wordsPerMinute
  { minutes := minutes, text := toString minutes ++ " min read", words := words }

/-- Method `getPostById`: first post with the given id, or `none`. -/
def BlogPostManager.getPostById (m : BlogPostManager) (id : String) : Option Post :=
  m.posts.find? fun post => decide (post.id = id)

/-- Method `searchPosts`: case-insensitive substring match of the keyword
against title, description, or any tag. -/
def BlogPostManager.searchPosts (m : BlogPostManager) (keyword : String) : List Post :=
  let lowerKeyword := jsToLower keyword
  m.posts.filter fun post =>
    strIncludes (jsToLower post.title) lowerKeyword ||
    strIncludes (jsToLower post.description) lowerKeyword ||
    (post.tags.any fun tag => strIncludes (jsToLower tag) lowerKeyword)

/-- Method `getAllPosts`: the retained sequence itself. -/
def BlogPostManager.getAllPosts (m : BlogPostManager) : List Post :=
  m.posts

/-- Method `getPostCount`: number of posts held. -/
def BlogPostManager.getPostCount (m : BlogPostManager) : Nat :=
  m.posts.length

/-- A JSON-like value: enough structure for the `Record<string, unknown>`
schema documents built by `SEOMetadataBuilder.fromBlogPost` (strings and
nested key/value objects). -/
inductive JsonVal where
  | str (s : String)
  | obj (fields : List (String × JsonVal))

/-- The `openGraph` block of `SeoMetadata` (src/types/blog.ts); every
field is optional. -/
structure OpenGraphData where
  title : Option String := none
  description : Option String := none
  image : Option String := none
  type : Option String := none
deriving DecidableEq, Repr

/-- The `twitter` block of `SeoMetadata` (src/types/blog.ts). -/
structure TwitterData where
  card : Option String := none
  site : Option String := none
  creator : Option String := none
deriving DecidableEq, Repr

/-- The builder's accumulated object, of TS type `Partial<SeoMetadata>`:
every field of `SeoMetadata` made optional (`title` and `description`
are required in `SeoMetadata` itself, the rest already optional). -/
structure SeoMetadataObj where
  title : Option String := none
  description : Option String := none
  canonical : Option String := none
  openGraph : Option OpenGraphData := none
  twitter : Option TwitterData := none
  schema : Option (List (String × JsonVal)) := none

/-- JS truthiness of an optional string field: `undefined` and `""` are
falsy, every other string truthy. -/
def jsTruthyStr : Option String → Bool
  | none => false
  | some s => decide (s ≠ "")

/-- The `SEOMetadataBuilder` class, value level: its single private field
`metadata`.  (Aliasing of the nested blocks, which only matters for
`clone`, is modelled separately by `SEOMetadataBuilderRef`.) -/
structure SEOMetadataBuilder where
  metadata : SeoMetadataObj := {}

/-- Method `setBasicMetadata(title, description)`. -/
def SEOMetadataBuilder.setBasicMetadata (b : SEOMetadataBuilder)
    (title description : String) : SEOMetadataBuilder :=
  { b with metadata :=
    { b.metadata with title := some title, description := some description } }

/-- Method `setCanonical(url)`. -/
def SEOMetadataBuilder.setCanonical (b : SEOMetadataBuilder) (url : String) :
    SEOMetadataBuilder :=
  { b with metadata := { b.metadata with canonical := some url } }

/-- Method `setOpenGraph(og)`. -/
def SEOMetadataBuilder.setOpenGraph (b : SEOMetadataBuilder) (og : OpenGraphData) :
    SEOMetadataBuilder :=
  { b with metadata := { b.metadata with openGraph := some og } }

/-- Method `setTwitter(twitter)`. -/
def SEOMetadataBuilder.setTwitter (b : SEOMetadataBuilder) (tw : TwitterData) :
    SEOMetadataBuilder :=
  { b with metadata := { b.metadata with twitter := some tw } }

/-- Method `setSchema(schema)`. -/
def SEOMetadataBuilder.setSchema (b : SEOMetadataBuilder)
    (schema : List (String × JsonVal)) : SEOMetadataBuilder :=
  { b with metadata := { b.metadata with schema := some schema } }

/-- Method `reset()`. -/
def SEOMetadataBuilder.reset (_b : SEOMetadataBuilder) : SEOMetadataBuilder :=
  { metadata := {} }

/-- Method `build()`: throws "Title and description are required" when
`!this.metadata.title || !this.metadata.description` (JS truthiness:
absent or empty string), otherwise returns the accumulated object itself
(the TS code returns `this.metadata as SeoMetadata`). -/
def SEOMetadataBuilder.build (b : SEOMetadataBuilder) :
    Except String SeoMetadataObj :=
  if !jsTruthyStr b.metadata.title || !jsTruthyStr b.metadata.description then
    Except.error "Title and description are required"
  else
    Except.ok b.metadata

/-- The site-wide constants `SITE.website` and `SITE.title` imported by
`SEOMetadataBuilder.fromBlogPost` from "@/config" (a module not present
in the repository snapshot; §6 calls it "an external configuration
collaborator").  Passed explicitly to the embedding. -/
structure SiteConfig where
  website : String
  title : String
deriving DecidableEq, Repr

/-- Static method `SEOMetadataBuilder.fromBlogPost(post, baseUrl)`.  `toISO` stands for
`Date.prototype.toISOString`, the host-environment timestamp formatter
(its output is carried opaquely inside the schema document).  JS
truthiness decides both the `ogImage` fallback (`post.data.ogImage ?
... : ...`) and the canonical default (`post.data.canonicalURL || url`). -/
def SEOMetadataBuilder.fromBlogPost (site : SiteConfig) (toISO : Int → String)
    (post : Post) (baseUrl : String) : SEOMetadataBuilder :=
  let builder : SEOMetadataBuilder := {}
  let url := baseUrl ++ "/posts/" ++ post.id
  let imageUrl :=
    if jsTruthyStr post.ogImage then baseUrl ++ post.ogImage.getD ""
    else baseUrl ++ "/og.png"
  let builder := builder.setBasicMetadata post.title post.description
  let builder := builder.setCanonical
    (if jsTruthyStr post.canonicalURL then post.canonicalURL.getD "" else url)
  let builder := builder.setOpenGraph
    { title := some post.title, description := some post.description,
      image := some imageUrl, type := some "article" }
  let builder := builder.setTwitter
    { card := some "summary_large_image", site := some site.website,
      creator := some post.author }
  let schema : List (String × JsonVal) :=
    [("@context", JsonVal.str "https://schema.org"),
     ("@type", JsonVal.str "BlogPosting"),
     ("headline", JsonVal.str post.title),
     ("description", JsonVal.str post.description),
     ("image", JsonVal.str imageUrl),
     ("datePublished", JsonVal.str (toISO post.pubDatetime))] ++
    (match post.modDatetime with
     | some m => [("dateModified", JsonVal.str (toISO m))]
     | none => []) ++
    [("author", JsonVal.obj
        [("@type", JsonVal.str "Person"), ("name", JsonVal.str post.author)]),
     ("publisher", JsonVal.obj
        [("@type", JsonVal.str "Organization"),
         ("name", JsonVal.str site.title),
         ("logo", JsonVal.obj
            [("@type", JsonVal.str "ImageObject"),
             ("url", JsonVal.str (baseUrl ++ "/favicon.svg"))])])]
  let builder := builder.setSchema schema
  builder

/-- Reference-level model of the builder state, capturing JS object
identity: the nested `openGraph`, `twitter` and `schema` blocks are JS
objects held *by reference*, so the metadata record stores heap
addresses for them, not their contents. -/
structure SeoMetadataRefObj where
  title : Option String := none
  description : Option String := none
  canonical : Option String := none
  openGraph : Option Nat := none
  twitter : Option Nat := none
  schema : Option Nat := none
deriving DecidableEq, Repr

/-- A heap of JS objects for the nested metadata blocks; the address of
an object is its index. -/
structure JSHeap where
  objs : List JsonVal

/-- Read the object at an address. -/
def JSHeap.read (h : JSHeap) (a : Nat) : Option JsonVal :=
  h.objs.get? a

/-- Mutate the object at an address in place (e.g. `schema["@type"] =
...` performed through any reference to that object). -/
def JSHeap.write (h : JSHeap) (a : Nat) (v : JsonVal) : JSHeap :=
  ⟨h.objs.set a v⟩

/-- The `SEOMetadataBuilder` class at reference level. -/
structure SEOMetadataBuilderRef where
  metadata : SeoMetadataRefObj := {}
deriving DecidableEq, Repr

/-- Method `clone()`: `builder.metadata = { ...this.metadata }`.  The spread
copies the top-level fields of `metadata`; the nested blocks are copied
as *references* (the same heap addresses), not as objects. -/
def SEOMetadataBuilderRef.clone (b : SEOMetadataBuilderRef) : SEOMetadataBuilderRef :=
  { metadata :=
    { title := b.metadata.title, description := b.metadata.description,
      canonical := b.metadata.canonical, openGraph := b.metadata.openGraph,
      twitter := b.metadata.twitter, schema := b.metadata.schema } }

/-- The structured-data block a builder currently observes: its schema
reference, dereferenced in the heap. -/
def derefSchema (h : JSHeap) (b : SEOMetadataBuilderRef) : Option JsonVal :=
  b.metadata.schema.bind h.read

/-- The stable sort is sorted: keys are non-increasing along the output. -/
theorem stableSortDesc_pairwise {α β : Type} [LinearOrder β] (key : α → β)
    (l : List α) :
    (stableSortDesc key l).Pairwise (fun a b => key b ≤ key a) := by
  haveI : IsTotal α (fun a b => key b ≤ key a) :=
    ⟨fun a b => le_total (key b) (key a)⟩
  haveI : IsTrans α (fun a b => key b ≤ key a) :=
    ⟨fun _ _ _ hab hbc => le_trans hbc hab⟩
  exact List.sorted_insertionSort _ l

/-- The stable sort permutes its input. -/
theorem stableSortDesc_perm {α β : Type} [LinearOrder β] (key : α → β)
    (l : List α) : List.Perm (stableSortDesc key l) l :=
  List.perm_insertionSort _ l

/-- Membership is preserved by the stable sort. -/
theorem mem_stableSortDesc {α β : Type} [LinearOrder β] {key : α → β}
    {l : List α} {a : α} : a ∈ stableSortDesc key l ↔ a ∈ l :=
  List.mem_insertionSort _

/-- Stability: the elements with any fixed key value appear in the sorted
output exactly as they appear in the input. -/
theorem filter_stableSortDesc {α β : Type} [LinearOrder β] [DecidableEq β]
    (key : α → β) (l : List α) (t : β) :
    (stableSortDesc key l).filter (fun a => decide (key a = t)) =
      l.filter (fun a => decide (key a = t)) := by
  have hpair : (l.filter (fun a => decide (key a = t))).Pairwise
      (fun a b => key b ≤ key a) := by
    refine List.pairwise_of_forall_mem_list ?_
    intro a ha b hb
    have ha' := of_decide_eq_true (List.mem_filter.mp ha).2
    have hb' := of_decide_eq_true (List.mem_filter.mp hb).2
    rw [ha', hb']
  have hsub : List.Sublist (l.filter (fun a => decide (key a = t)))
      (stableSortDesc key l) :=
    List.sublist_insertionSort hpair (List.filter_sublist l)
  have hsub2 : List.Sublist (l.filter (fun a => decide (key a = t)))
      ((stableSortDesc key l).filter (fun a => decide (key a = t))) := by
    have h2 := hsub.filter (fun a => decide (key a = t))
    rwa [List.filter_eq_self.mpr
      (fun a ha => (List.mem_filter.mp ha).2)] at h2
  have hlen : ((stableSortDesc key l).filter
        (fun a => decide (key a = t))).length =
      (l.filter (fun a => decide (key a = t))).length :=
    ((stableSortDesc_perm key l).filter _).length_eq
  exact (hsub2.eq_of_length hlen.symm).symm

/-- With an empty reference tag list every candidate's score is `0 / 0 =
NaN`, the JS comparison `NaN > 0` is false, and the score filter drops
every candidate: `findRelatedPosts` returns the empty list. -/
theorem findRelatedPosts_of_tags_nil (m : BlogPostManager) (limit : Nat)
    (ref : Post) (h : ref.tags = []) :
    m.findRelatedPosts ref limit = [] := by
  unfold BlogPostManager.findRelatedPosts
  rw [h]
  have hfilter :
      ((m.posts.filter fun post => decide (post.id ≠ ref.id)).map fun post =>
          { post := post,
            relevanceScore :=
              jsDiv (post.tags.filter fun tag => decide (tag ∈ ([] : List String))).length
                (List.length ([] : List String)) : RelatedPost }).filter
        (fun item => item.relevanceScore.gt (JSNum.num 0)) = [] := by
    refine List.filter_eq_nil_iff.mpr ?_
    intro item hitem
    obtain ⟨p, _, rfl⟩ := List.mem_map.mp hitem
    have htags : (p.tags.filter fun tag => decide (tag ∈ ([] : List String))) = [] :=
      List.filter_eq_nil_iff.mpr (fun a _ hdec =>
        (List.not_mem_nil a) (of_decide_eq_true hdec))
    simp [htags, jsDiv, JSNum.gt]
  rw [hfilter]
  simp [stableSortDesc]

/-- Every score that survives the `> 0` filter of `findRelatedPosts` is a
finite rational in (0, 1] — provided candidates' tag lists are
duplicate-free, as §3's data model requires ("ordered set of tag
strings").  `NaN` fails the filter, and `Infinity` would need a nonzero
numerator over a zero denominator, which the tag filter makes
impossible. -/
theorem relevanceScore_bounds (m : BlogPostManager) (ref : Post) (limit : Nat)
    (hnd : ∀ p ∈ m.posts, p.tags.Nodup) :
    ∀ r ∈ m.findRelatedPosts ref limit,
      ∃ q : ℚ, r.relevanceScore = JSNum.num q ∧ 0 ≤ q ∧ q ≤ 1 := by
  intro r hr
  unfold BlogPostManager.findRelatedPosts at hr
  have hr1 := List.mem_of_mem_take hr
  have hr2 := mem_stableSortDesc.mp hr1
  obtain ⟨hmem, hgt⟩ := List.mem_filter.mp hr2
  obtain ⟨p, hp, rfl⟩ := List.mem_map.mp hmem
  have hpmem : p ∈ m.posts := List.mem_of_mem_filter hp
  by_cases hn : ref.tags.length = 0
  · exfalso
    have htags : ref.tags = [] := List.length_eq_zero.mp hn
    have hc : (p.tags.filter fun tag => decide (tag ∈ ref.tags)) = [] := by
      refine List.filter_eq_nil_iff.mpr ?_
      intro a _ hdec
      rw [htags] at hdec
      exact (List.not_mem_nil a) (of_decide_eq_true hdec)
    rw [hc, hn] at hgt
    simp [jsDiv, JSNum.gt] at hgt
  · have hnpos : 0 < ref.tags.length := Nat.pos_of_ne_zero hn
    have hsubset : (p.tags.filter fun tag => decide (tag ∈ ref.tags)) ⊆ ref.tags :=
      fun a ha => of_decide_eq_true (List.mem_filter.mp ha).2
    have hnodup := (hnd p hpmem).filter (fun tag => decide (tag ∈ ref.tags))
    have hlen : (p.tags.filter fun tag => decide (tag ∈ ref.tags)).length ≤
        ref.tags.length :=
      (List.subperm_of_subset hnodup hsubset).length_le
    refine ⟨((p.tags.filter fun tag => decide (tag ∈ ref.tags)).length : ℚ) /
        (ref.tags.length : ℚ), ?_, ?_, ?_⟩
    · simp [jsDiv, hn]
    · exact div_nonneg (Nat.cast_nonneg _) (Nat.cast_nonneg _)
    · exact (div_le_one (by exact_mod_cast hnpos)).mpr (by exact_mod_cast hlen)

/-- The related-post pipeline as §4.2 words it: exclude the reference by
identifier equality, score each remaining post as the exact rational
`|tags(candidate) ∩ tags(reference)| / |tags(reference)|` (set
intersection cardinality over set cardinality), discard candidates with
score 0, stable-sort by descending score, and truncate to the limit; a
reference with zero tags produces the empty result. -/
def specRelatedPosts (posts : List Post) (ref : Post) (limit : Nat) :
    List RelatedPost :=
  if ref.tags = [] then []
  else
    (stableSortDesc (fun item => item.relevanceScore.key)
      (((posts.filter fun p => decide (p.id ≠ ref.id)).map fun p =>
          { post := p,
            relevanceScore := JSNum.num
              (((p.tags.toFinset ∩ ref.tags.toFinset).card : ℚ) /
                (ref.tags.toFinset.card : ℚ)) }).filter
        fun item => decide (item.relevanceScore ≠ JSNum.num 0))).take limit

/-- Under the data-model invariant that tag lists are duplicate-free, the
code's pipeline coincides with the spec's pipeline. -/
theorem findRelatedPosts_eq_spec (m : BlogPostManager) (ref : Post) (limit : Nat)
    (href : ref.tags.Nodup) (hnd : ∀ p ∈ m.posts, p.tags.Nodup) :
    m.findRelatedPosts ref limit = specRelatedPosts m.posts ref limit := by
  by_cases h : ref.tags = []
  · rw [findRelatedPosts_of_tags_nil m limit ref h, specRelatedPosts, if_pos h]
  · unfold BlogPostManager.findRelatedPosts specRelatedPosts
    rw [if_neg h]
    have hn : ref.tags.length ≠ 0 := fun h0 => h (List.length_eq_zero.mp h0)
    have hmap :
        ((m.posts.filter fun post => decide (post.id ≠ ref.id)).map fun post =>
            ({ post := post,
               relevanceScore :=
                 jsDiv (post.tags.filter fun tag => decide (tag ∈ ref.tags)).length
                   ref.tags.length } : RelatedPost)) =
          ((m.posts.filter fun p => decide (p.id ≠ ref.id)).map fun p =>
            ({ post := p,
               relevanceScore := JSNum.num
                 (((p.tags.toFinset ∩ ref.tags.toFinset).card : ℚ) /
                   (ref.tags.toFinset.card : ℚ)) } : RelatedPost)) := by
      refine List.map_congr_left ?_
      intro p hp
      have hpnd := hnd p (List.mem_of_mem_filter hp)
      have hfnd := hpnd.filter (fun tag => decide (tag ∈ ref.tags))
      have hset : (p.tags.filter fun tag => decide (tag ∈ ref.tags)).toFinset =
          p.tags.toFinset ∩ ref.tags.toFinset := by
        ext a
        simp [List.mem_toFinset, List.mem_filter]
      have hcount : (p.tags.filter fun tag => decide (tag ∈ ref.tags)).length =
          (p.tags.toFinset ∩ ref.tags.toFinset).card := by
        rw [← List.toFinset_card_of_nodup hfnd, hset]
      have hden : ref.tags.length = ref.tags.toFinset.card :=
        (List.toFinset_card_of_nodup href).symm
      simp [jsDiv, hn, ← hcount, ← hden]
    rw [hmap]
    have hfilt :
        (((m.posts.filter fun p => decide (p.id ≠ ref.id)).map fun p =>
            ({ post := p,
               relevanceScore := JSNum.num
                 (((p.tags.toFinset ∩ ref.tags.toFinset).card : ℚ) /
                   (ref.tags.toFinset.card : ℚ)) } : RelatedPost)).filter
          fun item => item.relevanceScore.gt (JSNum.num 0)) =
          (((m.posts.filter fun p => decide (p.id ≠ ref.id)).map fun p =>
            ({ post := p,
               relevanceScore := JSNum.num
                 (((p.tags.toFinset ∩ ref.tags.toFinset).card : ℚ) /
                   (ref.tags.toFinset.card : ℚ)) } : RelatedPost)).filter
          fun item => decide (item.relevanceScore ≠ JSNum.num 0)) := by
      refine List.filter_congr ?_
      intro item hitem
      obtain ⟨p, _, rfl⟩ := List.mem_map.mp hitem
      have hq0 : (0:ℚ) ≤ ((p.tags.toFinset ∩ ref.tags.toFinset).card : ℚ) /
          (ref.tags.toFinset.card : ℚ) :=
        div_nonneg (Nat.cast_nonneg _) (Nat.cast_nonneg _)
      show JSNum.gt _ _ = decide _
      simp only [JSNum.gt, ne_eq, JSNum.num.injEq]
      rw [decide_eq_decide]
      exact ⟨fun hlt => hlt.ne', fun hne => lt_of_le_of_ne hq0 (Ne.symm hne)⟩
    rw [hfilt]

/-- Spec section 8 worked example: candidate with tags ["a"] (score 0.5). -/
def examplePostA : Post := { id := "post-a", tags := ["a"] }

/-- Spec section 8 worked example: candidate with tags ["a", "b"] (score 1.0). -/
def examplePostAB : Post := { id := "post-ab", tags := ["a", "b"] }

/-- Spec section 8 worked example: candidate with tags ["c"] (score 0, excluded). -/
def examplePostC : Post := { id := "post-c", tags := ["c"] }

/-- Spec section 8 worked example: the reference post with tags ["a", "b"]. -/
def exampleRef : Post := { id := "post-ref", tags := ["a", "b"] }

/-- Spec section 8 worked example: the manager over the three candidates. -/
def exampleManager : BlogPostManager :=
  BlogPostManager.ofPosts [examplePostA, examplePostAB, examplePostC]

/-- Evaluation of the code on §8's worked example: two results, scores
in order 1.0 then 0.5. -/
theorem exampleRelated_eval : exampleManager.findRelatedPosts exampleRef 3 =
    [{ post := examplePostAB, relevanceScore := JSNum.num 1 },
     { post := examplePostA, relevanceScore := JSNum.num (1/2) }] := by
  norm_num [exampleManager, examplePostA, examplePostAB, examplePostC, exampleRef,
    BlogPostManager.ofPosts, getSortedPosts, BlogPostManager.findRelatedPosts,
    stableSortDesc, List.insertionSort, List.orderedInsert, jsDiv, JSNum.gt,
    JSNum.key, List.filter, List.map, List.take]

/-- C2: for every collection and limit, a reference post with an empty
tag list makes `findRelatedPosts` return the empty list — the `0 / 0 =
NaN` scores all fail the `> 0` filter, so no division error or NaN score
is observable in the result. -/
theorem findRelatedPosts_empty_reference_tags :
    ∀ (m : BlogPostManager) (limit : Nat) (ref : Post),
      ref.tags = [] → m.findRelatedPosts ref limit = [] :=
  fun m limit ref h => findRelatedPosts_of_tags_nil m limit ref h

/-- Witness for C2: a concrete two-post collection and a tagless
reference produce the empty result. -/
theorem findRelatedPosts_empty_reference_tags_witness :
    (BlogPostManager.ofPosts [examplePostA, examplePostAB]).findRelatedPosts
      { id := "no-tags" } 3 = [] :=
  findRelatedPosts_empty_reference_tags
    (BlogPostManager.ofPosts [examplePostA, examplePostAB]) 3 { id := "no-tags" } rfl

/-- C3: every element returned by `findRelatedPosts` carries a relevance
score that is a rational in the closed interval [0, 1] (candidates' tag
lists being duplicate-free, per §3's "ordered set of tag strings"). -/
theorem findRelatedPosts_scores_in_unit_interval :
    ∀ (m : BlogPostManager) (ref : Post) (limit : Nat),
      (∀ p ∈ m.posts, p.tags.Nodup) →
      ∀ r ∈ m.findRelatedPosts ref limit,
        ∃ q : ℚ, r.relevanceScore = JSNum.num q ∧ 0 ≤ q ∧ q ≤ 1 :=
  fun m ref limit hnd => relevanceScore_bounds m ref limit hnd

/-- Witness for C3: the top result of the worked example has its score
in [0, 1]. -/
theorem findRelatedPosts_scores_in_unit_interval_witness :
    ∃ q : ℚ,
      ({ post := examplePostAB, relevanceScore := JSNum.num 1 } :
        RelatedPost).relevanceScore = JSNum.num q ∧ 0 ≤ q ∧ q ≤ 1 := by
  refine findRelatedPosts_scores_in_unit_interval exampleManager exampleRef 3
    (by decide) _ ?_
  rw [exampleRelated_eval]
  exact List.mem_cons_self _ _

/-- C4: the related-post pipeline (exclude by identifier, score by shared
tag fraction, discard zero scores, stable descending sort, truncate)
coincides with §4.2's wording under the data model's duplicate-free tag
sets; and on §8's worked example — reference tags ["a","b"], candidates
["a"], ["a","b"], ["c"], limit 3 — it returns exactly two results with
scores in order 1.0 then 0.5. -/
theorem findRelatedPosts_matches_spec_pipeline :
    (∀ (m : BlogPostManager) (ref : Post) (limit : Nat),
        ref.tags.Nodup → (∀ p ∈ m.posts, p.tags.Nodup) →
        m.findRelatedPosts ref limit = specRelatedPosts m.posts ref limit) ∧
      exampleManager.findRelatedPosts exampleRef 3 =
        [{ post := examplePostAB, relevanceScore := JSNum.num 1 },
         { post := examplePostA, relevanceScore := JSNum.num (1/2) }] :=
  ⟨fun m ref limit href hnd => findRelatedPosts_eq_spec m ref limit href hnd,
   exampleRelated_eval⟩

/-- Witness for C4: the spec pipeline applied to the worked example
yields the same two results as the code. -/
theorem findRelatedPosts_matches_spec_pipeline_witness :
    specRelatedPosts exampleManager.posts exampleRef 3 =
      [{ post := examplePostAB, relevanceScore := JSNum.num 1 },
       { post := examplePostA, relevanceScore := JSNum.num (1/2) }] :=
  (findRelatedPosts_matches_spec_pipeline.1 exampleManager exampleRef 3
      (by decide) (by decide)).symm.trans
    findRelatedPosts_matches_spec_pipeline.2

/-- C7: the constructor's internally retained sequence is non-increasing
by publish timestamp, and for each timestamp value the posts carrying it
appear exactly in their original input order (stability).  Every query
operation is a pure function of this sequence and returns fresh derived
lists, so the sequence itself is never changed. -/
theorem postCollection_sorted_and_stable :
    ∀ input : List Post,
      (BlogPostManager.ofPosts input).posts.Pairwise
        (fun a b => b.pubDatetime ≤ a.pubDatetime) ∧
      ∀ t : Int,
        (BlogPostManager.ofPosts input).posts.filter
            (fun p => decide (p.pubDatetime = t)) =
          input.filter (fun p => decide (p.pubDatetime = t)) := by
  intro input
  exact ⟨stableSortDesc_pairwise (fun p : Post => p.pubDatetime) input,
    fun t => filter_stableSortDesc (fun p : Post => p.pubDatetime) input t⟩

/-- C8: `getRecentPosts n` is the first `n` posts of the sorted copy;
`n = 0` yields the empty list and any `n` at least the collection size
yields the whole sorted collection, without error. -/
theorem getRecentPosts_first_n :
    ∀ (m : BlogPostManager) (n : Nat),
      m.getRecentPosts n = m.posts.take n ∧
      m.getRecentPosts 0 = [] ∧
      (m.posts.length ≤ n → m.getRecentPosts n = m.posts) := by
  intro m n
  exact ⟨rfl, rfl, fun h => List.take_of_length_le h⟩

/-- Witness for C8: asking for 7 recent posts of a 3-post collection
returns the whole collection. -/
theorem getRecentPosts_first_n_witness :
    exampleManager.getRecentPosts 7 = exampleManager.posts :=
  (getRecentPosts_first_n exampleManager 7).2.2 (by decide)

/-- A pattern whose character list is empty occurs in every string. -/
theorem strIncludes_empty_pat (s pat : String) (h : pat.data = []) :
    strIncludes s pat = true := by
  unfold strIncludes
  rw [h]
  refine List.any_eq_true.mpr ?_
  exact ⟨0, List.mem_range.mpr (Nat.succ_pos _), by simp⟩

/-- C9: searching with the empty keyword returns every post held, in the
sorted order — the empty string is a (case-insensitive) substring of
every title. -/
theorem searchPosts_empty_keyword :
    ∀ m : BlogPostManager, m.searchPosts "" = m.posts := by
  intro m
  show m.posts.filter (fun post =>
      strIncludes (jsToLower post.title) (jsToLower "") ||
      strIncludes (jsToLower post.description) (jsToLower "") ||
      (post.tags.any fun tag => strIncludes (jsToLower tag) (jsToLower ""))) =
    m.posts
  refine List.filter_eq_self.mpr ?_
  intro p _
  rw [strIncludes_empty_pat (jsToLower p.title) (jsToLower "") rfl]
  rfl

/-- The worker `jsSplitWsAux` always emits at least one chunk. -/
theorem jsSplitWsAux_length_pos :
    ∀ (l : List Char) (b : Bool) (cur : List Char),
      1 ≤ (jsSplitWsAux b cur l).length
  | [], _, _ => by simp [jsSplitWsAux]
  | c :: cs, b, cur => by
    unfold jsSplitWsAux
    cases hws : c.isWhitespace with
    | true =>
      cases b with
      | true => simpa [hws] using jsSplitWsAux_length_pos cs true cur
      | false => simp [hws]
    | false => simpa [hws] using jsSplitWsAux_length_pos cs false (c :: cur)

/-- Trimming a string of pure whitespace yields the empty character
list. -/
theorem jsTrim_of_all_whitespace (l : List Char)
    (h : ∀ c ∈ l, c.isWhitespace) : jsTrim l = [] := by
  unfold jsTrim
  rw [List.dropWhile_eq_nil_iff.mpr h]
  rfl

/-- Natural-number `(w + 199) / 200` is the ceiling of `w / 200`. -/
theorem natCeilDiv_eq_ceil (w : Nat) :
    (((w + 199) / 200 : Nat) : ℤ) = ⌈(w : ℚ) / 200⌉ := by
  have h1 : 200 * ((w + 199) / 200) ≤ w + 199 := by omega
  have h2 : w ≤ 200 * ((w + 199) / 200) := by omega
  have h1q : (200 : ℚ) * (((w + 199) / 200 : Nat) : ℚ) ≤ (w : ℚ) + 199 := by
    exact_mod_cast h1
  have h2q : (w : ℚ) ≤ 200 * (((w + 199) / 200 : Nat) : ℚ) := by
    exact_mod_cast h2
  symm
  rw [Int.ceil_eq_iff]
  simp only [Int.cast_natCast]
  constructor
  · rw [lt_div_iff₀ (by norm_num : (0:ℚ) < 200)]
    linarith
  · rw [div_le_iff₀ (by norm_num : (0:ℚ) < 200)]
    linarith

/-- C10: the reading-time word count is always at least 1 (splitting
never returns an empty array), minutes is the ceiling of words / 200 and
is at least 1; on empty or all-whitespace content both words and minutes
are exactly 1. -/
theorem calculateReadingTime_bounds :
    ∀ (m : BlogPostManager) (content : String),
      1 ≤ (m.calculateReadingTime content).words ∧
      ((m.calculateReadingTime content).minutes : ℤ) =
        ⌈((m.calculateReadingTime content).words : ℚ) / 200⌉ ∧
      1 ≤ (m.calculateReadingTime content).minutes ∧
      ((∀ c ∈ content.data, c.isWhitespace) →
        (m.calculateReadingTime content).words = 1 ∧
        (m.calculateReadingTime content).minutes = 1) := by
  intro m content
  have hw : 1 ≤ (jsSplitWs (jsTrim content.data)).length :=
    jsSplitWsAux_length_pos _ false []
  refine ⟨hw, natCeilDiv_eq_ceil _, ?_, ?_⟩
  · show 1 ≤ ((jsSplitWs (jsTrim content.data)).length + (200 - 1)) / 200
    omega
  · intro hws
    have ht := jsTrim_of_all_whitespace content.data hws
    constructor
    · show (jsSplitWs (jsTrim content.data)).length = 1
      rw [ht]
      rfl
    · show ((jsSplitWs (jsTrim content.data)).length + (200 - 1)) / 200 = 1
      rw [ht]
      rfl

/-- Witness for C10: whitespace-only content reports one word and one
minute. -/
theorem calculateReadingTime_bounds_witness :
    (exampleManager.calculateReadingTime "   ").words = 1 ∧
      (exampleManager.calculateReadingTime "   ").minutes = 1 :=
  (calculateReadingTime_bounds exampleManager "   ").2.2.2 (by decide)

/-- An optional string field is JS-falsy iff it is absent or the empty
string. -/
theorem jsTruthyStr_eq_false_iff (o : Option String) :
    jsTruthyStr o = false ↔ o = none ∨ o = some "" := by
  rcases o with _ | s
  · simp [jsTruthyStr]
  · simp [jsTruthyStr]

/-- A builder whose title was set to the empty string (present, empty)
and whose description is present and nonempty. -/
def emptyTitleBuilder : SEOMetadataBuilder :=
  SEOMetadataBuilder.setBasicMetadata {} "" "A description"

/-- Counterexample for C5: both required fields are present — the title
was set, to the empty string — yet `build()` throws, because the code
tests JS truthiness (`!this.metadata.title`), not absence. -/
theorem build_fails_with_present_empty_title :
    emptyTitleBuilder.metadata.title = some "" ∧
      emptyTitleBuilder.metadata.title ≠ none ∧
      emptyTitleBuilder.metadata.description = some "A description" ∧
      emptyTitleBuilder.build =
        Except.error "Title and description are required" :=
  ⟨rfl, fun h => Option.noConfusion h, rfl, rfl⟩

/-- Method `build()` yields the missing-required-field error exactly when the
title or the description is absent or the empty string. -/
theorem build_eq_error_iff (b : SEOMetadataBuilder) :
    b.build = Except.error "Title and description are required" ↔
      b.metadata.title = none ∨ b.metadata.title = some "" ∨
      b.metadata.description = none ∨ b.metadata.description = some "" := by
  obtain ⟨T, D, c, og, tw, sc⟩ := b
  rcases T with _ | t
  · simp [SEOMetadataBuilder.build, jsTruthyStr]
  · rcases D with _ | d
    · simp [SEOMetadataBuilder.build, jsTruthyStr]
    · by_cases ht : t = "" <;> by_cases hd : d = "" <;>
        simp [SEOMetadataBuilder.build, jsTruthyStr, ht, hd]

/-- Method `build()` succeeds with the accumulated metadata object when both
required fields are present and nonempty. -/
theorem build_ok_of_nonempty (b : SEOMetadataBuilder)
    (h1 : b.metadata.title ≠ none) (h2 : b.metadata.title ≠ some "")
    (h3 : b.metadata.description ≠ none) (h4 : b.metadata.description ≠ some "") :
    b.build = Except.ok b.metadata := by
  rcases ht : b.metadata.title with _ | t
  · exact absurd ht h1
  · rcases hd : b.metadata.description with _ | d
    · exact absurd hd h3
    · have ht' : t ≠ "" := fun he => h2 (by rw [ht, he])
      have hd' : d ≠ "" := fun he => h4 (by rw [hd, he])
      unfold SEOMetadataBuilder.build
      rw [ht, hd]
      simp [jsTruthyStr, ht', hd']

/-- C5 amended: `build()` fails with the missing-required-field error iff
the accumulated title or description is absent *or the empty string*
(JS falsiness); when both are present and nonempty it returns the
accumulated metadata object; in particular it fails on a freshly
constructed builder. -/
theorem build_requires_nonempty_title_description :
    (∀ b : SEOMetadataBuilder,
        (b.build = Except.error "Title and description are required" ↔
          b.metadata.title = none ∨ b.metadata.title = some "" ∨
          b.metadata.description = none ∨ b.metadata.description = some "") ∧
        ((b.metadata.title ≠ none ∧ b.metadata.title ≠ some "" ∧
          b.metadata.description ≠ none ∧ b.metadata.description ≠ some "") →
          b.build = Except.ok b.metadata)) ∧
      SEOMetadataBuilder.build {} =
        Except.error "Title and description are required" :=
  ⟨fun b => ⟨build_eq_error_iff b,
      fun h => build_ok_of_nonempty b h.1 h.2.1 h.2.2.1 h.2.2.2⟩,
    rfl⟩

/-- Witness for C5's amended claim: a builder with nonempty title and
description builds successfully. -/
theorem build_requires_nonempty_title_description_witness :
    (SEOMetadataBuilder.setBasicMetadata {} "A title" "A description").build =
      Except.ok (SEOMetadataBuilder.setBasicMetadata {} "A title" "A description").metadata :=
  (build_requires_nonempty_title_description.1
      (SEOMetadataBuilder.setBasicMetadata {} "A title" "A description")).2
    ⟨by simp [SEOMetadataBuilder.setBasicMetadata],
     by simp [SEOMetadataBuilder.setBasicMetadata],
     by simp [SEOMetadataBuilder.setBasicMetadata],
     by simp [SEOMetadataBuilder.setBasicMetadata]⟩

/-- C6: the canonical URL of the builder derived by `fromBlogPost` is
`baseUrl + "/posts/" + id` when the post specifies no canonical URL of
its own (absent, or the degenerate empty string, which is not a URL),
and is the post's own canonical URL whenever it specifies a nonempty
one. -/
theorem fromBlogPost_canonical :
    ∀ (site : SiteConfig) (toISO : Int → String) (post : Post) (baseUrl : String),
      ((post.canonicalURL = none ∨ post.canonicalURL = some "") →
        (SEOMetadataBuilder.fromBlogPost site toISO post baseUrl).metadata.canonical =
          some (baseUrl ++ "/posts/" ++ post.id)) ∧
      (∀ s : String, post.canonicalURL = some s → s ≠ "" →
        (SEOMetadataBuilder.fromBlogPost site toISO post baseUrl).metadata.canonical =
          some s) := by
  intro site toISO post baseUrl
  constructor
  · intro h
    show some (if jsTruthyStr post.canonicalURL then post.canonicalURL.getD ""
        else baseUrl ++ "/posts/" ++ post.id) =
      some (baseUrl ++ "/posts/" ++ post.id)
    rcases h with h | h <;> rw [h] <;> simp [jsTruthyStr]
  · intro s hs hne
    show some (if jsTruthyStr post.canonicalURL then post.canonicalURL.getD ""
        else baseUrl ++ "/posts/" ++ post.id) = some s
    rw [hs]
    simp [jsTruthyStr, hne]

/-- Site constants used by witnesses. -/
def exampleSite : SiteConfig :=
  { website := "https://example.test", title := "Example Site" }

/-- Witness for C6: a post without a canonical URL gets the default
`baseUrl + "/posts/" + id`. -/
theorem fromBlogPost_canonical_witness :
    (SEOMetadataBuilder.fromBlogPost exampleSite (fun _ => "")
        examplePostA "https://x.test").metadata.canonical =
      some ("https://x.test" ++ "/posts/" ++ examplePostA.id) :=
  (fromBlogPost_canonical exampleSite (fun _ => "") examplePostA "https://x.test").1
    (Or.inl rfl)

/-- Concrete builder for the clone scenario: its structured-data block
lives at heap address 0. -/
def cloneDemoBuilder : SEOMetadataBuilderRef :=
  { metadata := { title := some "T", description := some "D", schema := some 0 } }

/-- The heap holding the original structured-data block. -/
def cloneDemoHeap : JSHeap :=
  ⟨[JsonVal.obj [("@type", JsonVal.str "BlogPosting")]]⟩

/-- The heap after an in-place mutation of the block performed through
the clone's schema reference. -/
def cloneMutatedHeap : JSHeap :=
  cloneDemoHeap.write (cloneDemoBuilder.clone.metadata.schema.getD 0)
    (JsonVal.obj [("@type", JsonVal.str "Article")])

/-- C1 (refuted): `clone()` merely spreads the top-level fields, so the
clone holds the *same* references to the nested openGraph, twitter and
schema blocks; mutating the block in place through the clone's schema
reference changes the structured data observed through the original
builder. -/
theorem clone_shares_nested_block_references :
    (∀ b : SEOMetadataBuilderRef,
        b.clone.metadata.schema = b.metadata.schema ∧
        b.clone.metadata.openGraph = b.metadata.openGraph ∧
        b.clone.metadata.twitter = b.metadata.twitter) ∧
      derefSchema cloneDemoHeap cloneDemoBuilder =
        some (JsonVal.obj [("@type", JsonVal.str "BlogPosting")]) ∧
      derefSchema cloneMutatedHeap cloneDemoBuilder =
        some (JsonVal.obj [("@type", JsonVal.str "Article")]) ∧
      derefSchema cloneMutatedHeap cloneDemoBuilder ≠
        derefSchema cloneDemoHeap cloneDemoBuilder := by
  refine ⟨fun b => ⟨rfl, rfl, rfl⟩, rfl, rfl, fun h => ?_⟩
  have h1 : JsonVal.obj [("@type", JsonVal.str "Article")] =
      JsonVal.obj [("@type", JsonVal.str "BlogPosting")] := Option.some.inj h
  have h2 := congrArg
    (fun v => match v with
      | JsonVal.obj (("@type", JsonVal.str s) :: _) => s
      | _ => "") h1
  exact absurd h2 (by decide)
